import Mathlib

/-! # Host tool policy table of `ui/build/paths/config.go`

A shallow embedding of the Go package `paths`: the record `PathConfig`, its five
named presets, the package-level map `Configuration`, the lookup `GetConfig` and
the package initialiser `init`, followed by the properties proved about them.

A Go `map[string]PathConfig` is embedded as a `Finmap`: a finite set of entries
with pairwise distinct keys, compared extensionally, with no iteration order.
The package-level variable `Configuration` and the constant `runtime.GOOS` are
read by the Go functions implicitly; here they are explicit arguments.
-/

namespace Paths

/-- The Go struct `PathConfig`: four booleans. -/
structure PathConfig where
  /-- Whether to create the symlink in the new PATH for this tool. -/
  Symlink : Bool
  /-- Whether to log about usages of this tool to the soong.log. -/
  Log : Bool
  /-- Whether to exit with an error instead of invoking the underlying tool. -/
  Error : Bool
  /-- Whether we use a linux-specific prebuilt for this tool. A field that a Go
  composite literal leaves out holds the zero value `false`. -/
  LinuxOnlyPrebuilt : Bool := false
  deriving DecidableEq, Repr

def Allowed : PathConfig :=
  { Symlink := true
    Log := false
    Error := false }

def Forbidden : PathConfig :=
  { Symlink := false
    Log := true
    Error := true }

def Log : PathConfig :=
  { Symlink := true
    Log := true
    Error := false }

/-- The configuration used if the tool is not listed in the table. -/
def Missing : PathConfig :=
  { Symlink := true
    Log := true
    Error := true }

def LinuxOnlyPrebuilt : PathConfig :=
  { Symlink := false
    Log := true
    Error := true
    LinuxOnlyPrebuilt := true }

/-- The Go type `map[string]PathConfig`. -/
abbrev Registry : Type := Finmap (fun _ : String => PathConfig)

/-- The Go function `GetConfig`, with the package-level map it reads as its first
argument: the comma-ok map read, and `Missing` when the key is absent. -/
def GetConfig (Configuration : Registry) (name : String) : PathConfig :=
  match Configuration.lookup name with
  | some config => config
  | none => Missing

/-- The entries of the composite literal that initialises `Configuration`, in
source order. -/
def ConfigurationLiteral : List (Sigma (fun _ : String => PathConfig)) :=
  [ ⟨"bash", Allowed⟩,
    ⟨"bindgen", Allowed⟩,
    ⟨"dd", Allowed⟩,
    ⟨"diff", Allowed⟩,
    ⟨"dlv", Allowed⟩,
    ⟨"expr", Allowed⟩,
    ⟨"fuser", Allowed⟩,
    ⟨"getopt", Allowed⟩,
    ⟨"git", Allowed⟩,
    ⟨"hexdump", Allowed⟩,
    ⟨"install", Allowed⟩,
    ⟨"jar", Allowed⟩,
    ⟨"java", Allowed⟩,
    ⟨"javap", Allowed⟩,
    ⟨"lsof", Allowed⟩,
    ⟨"openssl", Allowed⟩,
    ⟨"pahole", Allowed⟩,
    ⟨"perl", Allowed⟩,
    ⟨"pstree", Allowed⟩,
    ⟨"realpath", Allowed⟩,
    ⟨"rsync", Allowed⟩,
    ⟨"sh", Allowed⟩,
    ⟨"rustc", Allowed⟩,
    ⟨"stubby", Allowed⟩,
    ⟨"tr", Allowed⟩,
    ⟨"unzip", Allowed⟩,
    ⟨"zip", Allowed⟩,

    ⟨"x86_64-linux-android-addr2line", Allowed⟩,
    ⟨"x86_64-linux-android-ar", Allowed⟩,
    ⟨"x86_64-linux-android-as", Allowed⟩,
    ⟨"x86_64-linux-android-c++filt", Allowed⟩,
    ⟨"x86_64-linux-android-dwp", Allowed⟩,
    ⟨"x86_64-linux-android-elfedit", Allowed⟩,
    ⟨"x86_64-linux-android-gcc", Allowed⟩,
    ⟨"x86_64-linux-android-gcc-ar", Allowed⟩,
    ⟨"x86_64-linux-android-gcc-nm", Allowed⟩,
    ⟨"x86_64-linux-android-gcc-ranlib", Allowed⟩,
    ⟨"x86_64-linux-android-gcov", Allowed⟩,
    ⟨"x86_64-linux-android-gcov-tool", Allowed⟩,
    ⟨"x86_64-linux-android-gprof", Allowed⟩,
    ⟨"x86_64-linux-android-ld", Allowed⟩,
    ⟨"x86_64-linux-android-ld.bfd", Allowed⟩,
    ⟨"x86_64-linux-android-ld.gold", Allowed⟩,
    ⟨"x86_64-linux-android-nm", Allowed⟩,
    ⟨"x86_64-linux-android-objcopy", Allowed⟩,
    ⟨"x86_64-linux-android-objdump", Allowed⟩,
    ⟨"x86_64-linux-android-ranlib", Allowed⟩,
    ⟨"x86_64-linux-android-readelf", Allowed⟩,
    ⟨"x86_64-linux-android-size", Allowed⟩,
    ⟨"x86_64-linux-android-strings", Allowed⟩,
    ⟨"x86_64-linux-android-strip", Allowed⟩,

    -- Host toolchain is removed. In-tree toolchain should be used instead.
    ⟨"ar", Forbidden⟩,
    ⟨"as", Forbidden⟩,
    ⟨"cc", Forbidden⟩,
    ⟨"clang", Forbidden⟩,
    ⟨"clang++", Forbidden⟩,
    ⟨"gcc", Forbidden⟩,
    ⟨"g++", Forbidden⟩,
    ⟨"ld", Forbidden⟩,
    ⟨"ld.bfd", Forbidden⟩,
    ⟨"ld.gold", Forbidden⟩,
    ⟨"pkg-config", Forbidden⟩,

    -- These are toybox tools that only work on Linux.
    ⟨"pgrep", LinuxOnlyPrebuilt⟩,
    ⟨"pkill", LinuxOnlyPrebuilt⟩,
    ⟨"ps", LinuxOnlyPrebuilt⟩ ]

/-- The package-level variable `Configuration` as the composite literal leaves
it, before `init` has run. -/
def Configuration : Registry :=
  ConfigurationLiteral.toFinmap

/-- The body of the `range` loop of `init` for one visited entry, acting on the
map: `if config.LinuxOnlyPrebuilt { Configuration[name] = Allowed }`. -/
def initLoopBody (Configuration : Registry) (name : String) (config : PathConfig) :
    Registry :=
  if config.LinuxOnlyPrebuilt then Configuration.insert name Allowed else Configuration

/-- The `range` loop of `init`. Go fixes no order for the visit of a map, so the
loop is a fold over the unordered entries, which the body must be insensitive
to the order of. The body assigns to the visited key only, adding and deleting
no key, so each entry present when the loop starts is visited once, with the
value it had then. -/
def initLoop (Configuration : Registry) : Registry :=
  Finmap.foldl initLoopBody
    (by
      intro d a₁ b₁ a₂ b₂
      unfold initLoopBody
      by_cases h : a₁ = a₂
      · subst h
        cases b₁.LinuxOnlyPrebuilt <;> cases b₂.LinuxOnlyPrebuilt <;> simp
      · cases b₁.LinuxOnlyPrebuilt <;> cases b₂.LinuxOnlyPrebuilt <;>
          simp [Finmap.insert_insert_of_ne _ h])
    Configuration Configuration

/-- The Go package initialiser `init`, with `runtime.GOOS` and the map it
mutates as arguments; the result is the map it leaves behind. -/
def init (GOOS : String) (Configuration : Registry) : Registry :=
  if GOOS = "darwin" then
    let Configuration := Configuration.insert "sw_vers" Allowed
    let Configuration := Configuration.insert "xcrun" Allowed
    initLoop Configuration
  else
    Configuration

/-! ## The loop of `init`, entry by entry -/

/-- What the fold of the loop body over a duplicate-free entry list does to the
read of one key: a visited restricted entry is overwritten, anything else is
as in the map the fold started from. -/
theorem lookup_foldl_initLoopBody (l : List (Sigma (fun _ : String => PathConfig)))
    (hl : l.NodupKeys) (d : Registry) (n : String) :
    (l.foldl (fun d s => initLoopBody d s.1 s.2) d).lookup n =
      match l.dlookup n with
      | some cfg => if cfg.LinuxOnlyPrebuilt then some Allowed else d.lookup n
      | none => d.lookup n := by
  induction l generalizing d with
  | nil => simp
  | cons x t ih =>
    obtain ⟨a, b⟩ := x
    rw [List.nodupKeys_cons] at hl
    rw [List.foldl_cons, ih hl.2]
    by_cases h : a = n
    · subst h
      have hnone : t.dlookup a = none := List.dlookup_eq_none.mpr hl.1
      rw [List.dlookup_cons_eq, hnone]
      cases hb : b.LinuxOnlyPrebuilt <;> simp [initLoopBody, hb]
    · rw [List.dlookup_cons_ne _ _ (Ne.symm h)]
      have hd : (initLoopBody d a b).lookup n = d.lookup n := by
        unfold initLoopBody
        split
        · exact Finmap.lookup_insert_of_ne _ (Ne.symm h)
        · rfl
      rw [hd]

/-- Reading a key after the loop of `init`: a restricted record has become
`Allowed`, every other record and every absent key is as before. -/
theorem lookup_initLoop (c : Registry) (n : String) :
    (initLoop c).lookup n =
      (c.lookup n).map (fun cfg => if cfg.LinuxOnlyPrebuilt then Allowed else cfg) := by
  induction c using Finmap.induction_on with
  | H s =>
    have h := lookup_foldl_initLoopBody s.entries s.nodupKeys (AList.toFinmap s) n
    have hf : initLoop (AList.toFinmap s) =
        s.entries.foldl (fun d x => initLoopBody d x.1 x.2) (AList.toFinmap s) := rfl
    rw [hf, h, Finmap.lookup_toFinmap, AList.lookup]
    cases hq : s.entries.dlookup n with
    | none => simp
    | some cfg => cases hb : cfg.LinuxOnlyPrebuilt <;> simp [hb]

/-! ## Reading the map after `init` -/

/-- The map read after `init` on darwin: the two named keys hold `Allowed`, a
restricted record has become `Allowed`, anything else is as before. -/
theorem lookup_init_darwin (r : Registry) (n : String) :
    (init "darwin" r).lookup n =
      if n = "sw_vers" ∨ n = "xcrun" then some Allowed
      else (r.lookup n).map (fun cfg => if cfg.LinuxOnlyPrebuilt then Allowed else cfg) := by
  have hA : Allowed.LinuxOnlyPrebuilt = false := rfl
  simp only [init, if_true, lookup_initLoop]
  by_cases hx : n = "xcrun"
  · subst hx
    simp [hA]
  · rw [Finmap.lookup_insert_of_ne _ hx]
    by_cases hs : n = "sw_vers"
    · subst hs
      simp [hA]
    · rw [Finmap.lookup_insert_of_ne _ hs]
      simp [hx, hs]

/-- The lookup after `init` on darwin, in terms of the lookup before it. -/
theorem GetConfig_init_darwin (r : Registry) (n : String) :
    GetConfig (init "darwin" r) n =
      if n = "sw_vers" ∨ n = "xcrun" then Allowed
      else if (GetConfig r n).LinuxOnlyPrebuilt then Allowed
      else GetConfig r n := by
  unfold GetConfig
  rw [lookup_init_darwin]
  by_cases h : n = "sw_vers" ∨ n = "xcrun"
  · simp [h]
  · simp only [h, if_false]
    cases hq : r.lookup n with
    | none => simp [Missing]
    | some cfg => cases hb : cfg.LinuxOnlyPrebuilt <;> simp [hb]

/-- On a host OS other than darwin `init` leaves the map as it is. -/
theorem init_of_ne_darwin (os : String) (r : Registry) (h : os ≠ "darwin") :
    init os r = r := by
  simp [init, h]

/-- A second run of `init` changes nothing. -/
theorem init_init (os : String) (r : Registry) : init os (init os r) = init os r := by
  by_cases h : os = "darwin"
  · subst h
    apply Finmap.ext_lookup
    intro n
    have hA : Allowed.LinuxOnlyPrebuilt = false := rfl
    rw [lookup_init_darwin (init "darwin" r) n, lookup_init_darwin r n]
    by_cases hn : n = "sw_vers" ∨ n = "xcrun"
    · simp [hn]
    · simp only [hn, if_false]
      cases hq : r.lookup n with
      | none => simp
      | some cfg => cases hb : cfg.LinuxOnlyPrebuilt <;> simp [hb, hA]
  · simp only [init_of_ne_darwin os _ h]

/-! ## The claims -/

/-- C1: for every registry and every name that is not one of its keys, the
empty string included, `GetConfig` returns the `Missing` preset, the record with
Symlink=true, Log=true, Error=true, LinuxOnlyPrebuilt=false. -/
theorem C1_GetConfig_absent (r : Registry) (name : String) (h : name ∉ r) :
    GetConfig r name = Missing ∧
      GetConfig r name =
        { Symlink := true, Log := true, Error := true, LinuxOnlyPrebuilt := false } := by
  have hn : r.lookup name = none := Finmap.lookup_eq_none.mpr h
  simp [GetConfig, hn, Missing]

theorem C1_GetConfig_absent_witness :
    "" ∉ Configuration ∧
      (GetConfig Configuration "" = Missing ∧
        GetConfig Configuration "" =
          { Symlink := true, Log := true, Error := true, LinuxOnlyPrebuilt := false }) :=
  ⟨by decide, C1_GetConfig_absent Configuration "" (by decide)⟩

/-- C2: for every registry and every name that is one of its keys, `GetConfig`
returns exactly the record stored under that key: the map read of the key is
that record, the pair of the key and that record is an entry of the map, and
any record stored under the key is the one returned. -/
theorem C2_GetConfig_present (r : Registry) (name : String) (h : name ∈ r) :
    r.lookup name = some (GetConfig r name) ∧
      (⟨name, GetConfig r name⟩ : Sigma (fun _ : String => PathConfig)) ∈ r.entries ∧
      ∀ cfg : PathConfig,
        (⟨name, cfg⟩ : Sigma (fun _ : String => PathConfig)) ∈ r.entries →
          GetConfig r name = cfg := by
  obtain ⟨b, hb⟩ := Finmap.mem_iff.mp h
  have hg : GetConfig r name = b := by simp [GetConfig, hb]
  refine ⟨by rw [hg, hb], ?_, ?_⟩
  · rw [hg]
    exact Finmap.lookup_eq_some_iff.mp hb
  · intro cfg hcfg
    have hc : r.lookup name = some cfg := Finmap.lookup_eq_some_iff.mpr hcfg
    rw [hg]
    exact Option.some.inj (hb.symm.trans hc)

theorem C2_GetConfig_present_witness :
    "gcc" ∈ Configuration ∧
      (Configuration.lookup "gcc" = some (GetConfig Configuration "gcc") ∧
        (⟨"gcc", GetConfig Configuration "gcc"⟩ : Sigma (fun _ : String => PathConfig)) ∈
          Configuration.entries ∧
        ∀ cfg : PathConfig,
          (⟨"gcc", cfg⟩ : Sigma (fun _ : String => PathConfig)) ∈ Configuration.entries →
            GetConfig Configuration "gcc" = cfg) :=
  ⟨by decide, C2_GetConfig_present Configuration "gcc" (by decide)⟩

/-- C3: for every registry r and every name n, the lookup in the registry that
`init` produces on host OS "darwin" is `Allowed` if n is "sw_vers" or "xcrun",
`Allowed` if the lookup of n in r has LinuxOnlyPrebuilt=true, and otherwise
equal to the lookup of n in r. -/
theorem C3_GetConfig_after_darwin_init (r : Registry) (n : String) :
    GetConfig (init "darwin" r) n =
      if n = "sw_vers" ∨ n = "xcrun" then Allowed
      else if (GetConfig r n).LinuxOnlyPrebuilt = true then Allowed
      else GetConfig r n :=
  GetConfig_init_darwin r n

/-- C4: on the shipped table, after `init` on host OS "darwin" the lookups of
"pgrep", "pkill", "ps", "sw_vers" and "xcrun" are each `Allowed`, whereas before
`init` the lookups of "sw_vers" and "xcrun" are `Missing`, both names being
absent from the table. -/
theorem C4_shipped_darwin_overrides :
    GetConfig (init "darwin" Configuration) "pgrep" = Allowed ∧
      GetConfig (init "darwin" Configuration) "pkill" = Allowed ∧
      GetConfig (init "darwin" Configuration) "ps" = Allowed ∧
      GetConfig (init "darwin" Configuration) "sw_vers" = Allowed ∧
      GetConfig (init "darwin" Configuration) "xcrun" = Allowed ∧
      GetConfig Configuration "sw_vers" = Missing ∧
      GetConfig Configuration "xcrun" = Missing ∧
      "sw_vers" ∉ Configuration ∧ "xcrun" ∉ Configuration := by
  simp only [GetConfig_init_darwin]
  decide

/-- C5: for every registry and every host OS string other than "darwin", `init`
returns the registry unchanged: the same map, so the same key set, the same
record under every key and the same `GetConfig` result for every name. -/
theorem C5_init_other_os_unchanged (r : Registry) (os : String) (h : os ≠ "darwin") :
    init os r = r ∧
      (init os r).keys = r.keys ∧
      (∀ n : String, (init os r).lookup n = r.lookup n) ∧
      ∀ n : String, GetConfig (init os r) n = GetConfig r n := by
  rw [init_of_ne_darwin os r h]
  exact ⟨rfl, rfl, fun _ => rfl, fun _ => rfl⟩

theorem C5_init_other_os_unchanged_witness :
    "linux" ≠ "darwin" ∧
      (init "linux" Configuration = Configuration ∧
        (init "linux" Configuration).keys = Configuration.keys ∧
        (∀ n : String, (init "linux" Configuration).lookup n = Configuration.lookup n) ∧
        ∀ n : String, GetConfig (init "linux" Configuration) n = GetConfig Configuration n) :=
  ⟨by decide, C5_init_other_os_unchanged Configuration "linux" (by decide)⟩

/-- C6: `init` is idempotent: for every registry and every host OS string, in
particular "darwin", running `init` twice yields exactly the same registry as
running it once. -/
theorem C6_init_idempotent (r : Registry) (os : String) :
    init os (init os r) = init os r ∧
      init "darwin" (init "darwin" r) = init "darwin" r :=
  ⟨init_init os r, init_init "darwin" r⟩

/-- C7: on the shipped table the lookups of "git", "bash" and "java" are each
the `Allowed` preset (Symlink=true, Log=false, Error=false), before `init` and
after it for every host OS string. -/
theorem C7_shipped_allowed (os : String) :
    GetConfig Configuration "git" = Allowed ∧
      GetConfig Configuration "bash" = Allowed ∧
      GetConfig Configuration "java" = Allowed ∧
      GetConfig (init os Configuration) "git" = Allowed ∧
      GetConfig (init os Configuration) "bash" = Allowed ∧
      GetConfig (init os Configuration) "java" = Allowed ∧
      Allowed.Symlink = true ∧ Allowed.Log = false ∧ Allowed.Error = false := by
  by_cases h : os = "darwin"
  · subst h
    simp only [GetConfig_init_darwin]
    decide
  · rw [init_of_ne_darwin os _ h]
    decide

/-- C8: on the shipped table the lookups of "gcc", "clang" and "pkg-config" are
each the `Forbidden` preset (Symlink=false, Log=true, Error=true), before `init`
and after it for every host OS string, "darwin" included. -/
theorem C8_shipped_forbidden (os : String) :
    GetConfig Configuration "gcc" = Forbidden ∧
      GetConfig Configuration "clang" = Forbidden ∧
      GetConfig Configuration "pkg-config" = Forbidden ∧
      GetConfig (init os Configuration) "gcc" = Forbidden ∧
      GetConfig (init os Configuration) "clang" = Forbidden ∧
      GetConfig (init os Configuration) "pkg-config" = Forbidden ∧
      GetConfig (init "darwin" Configuration) "gcc" = Forbidden ∧
      GetConfig (init "darwin" Configuration) "clang" = Forbidden ∧
      GetConfig (init "darwin" Configuration) "pkg-config" = Forbidden ∧
      Forbidden.Symlink = false ∧ Forbidden.Log = true ∧ Forbidden.Error = true := by
  by_cases h : os = "darwin"
  · subst h
    simp only [GetConfig_init_darwin]
    decide
  · rw [init_of_ne_darwin os _ h]
    simp only [GetConfig_init_darwin]
    decide

/-- C9: on the shipped table, before `init` and after it for every host OS other
than "darwin", the lookup of "pgrep" is the `LinuxOnlyPrebuilt` preset:
Symlink=false, Log=true, Error=true, LinuxOnlyPrebuilt=true. -/
theorem C9_shipped_pgrep (os : String) (h : os ≠ "darwin") :
    GetConfig Configuration "pgrep" = LinuxOnlyPrebuilt ∧
      GetConfig (init os Configuration) "pgrep" = LinuxOnlyPrebuilt ∧
      LinuxOnlyPrebuilt =
        { Symlink := false, Log := true, Error := true, LinuxOnlyPrebuilt := true } := by
  rw [init_of_ne_darwin os _ h]
  decide

theorem C9_shipped_pgrep_witness :
    "linux" ≠ "darwin" ∧
      (GetConfig Configuration "pgrep" = LinuxOnlyPrebuilt ∧
        GetConfig (init "linux" Configuration) "pgrep" = LinuxOnlyPrebuilt ∧
        LinuxOnlyPrebuilt =
          { Symlink := false, Log := true, Error := true, LinuxOnlyPrebuilt := true }) :=
  ⟨by decide, C9_shipped_pgrep "linux" (by decide)⟩

/-- C10: the five named presets have these (Symlink, Log, Error,
LinuxOnlyPrebuilt) values: Allowed = (true, false, false, false); Forbidden =
(false, true, true, false); Log = (true, true, false, false); Missing = (true,
true, true, false); LinuxOnlyPrebuilt = (false, true, true, true). Missing and
Forbidden agree on every field except Symlink, where Missing is true and
Forbidden is false, and the five presets are pairwise distinct. -/
theorem C10_preset_values :
    (Allowed = ⟨true, false, false, false⟩ ∧
      Forbidden = ⟨false, true, true, false⟩ ∧
      Log = ⟨true, true, false, false⟩ ∧
      Missing = ⟨true, true, true, false⟩ ∧
      LinuxOnlyPrebuilt = ⟨false, true, true, true⟩) ∧
    (Missing.Log = Forbidden.Log ∧
      Missing.Error = Forbidden.Error ∧
      Missing.LinuxOnlyPrebuilt = Forbidden.LinuxOnlyPrebuilt ∧
      Missing.Symlink = true ∧ Forbidden.Symlink = false) ∧
    [Allowed, Forbidden, Log, Missing, LinuxOnlyPrebuilt].Pairwise (fun a b => a ≠ b) := by
  decide

/-! ## Keys and records of the shipped table and of the patched map -/

/-- The keys of the shipped map are the keys written in the literal. -/
theorem mem_Configuration_iff (n : String) :
    n ∈ Configuration ↔ n ∈ ConfigurationLiteral.keys := by
  unfold Configuration
  rw [Finmap.mem_list_toFinmap, List.mem_keys]

/-- The map read on the shipped map is the search of the literal. -/
theorem lookup_Configuration (n : String) :
    Configuration.lookup n = ConfigurationLiteral.dlookup n := by
  unfold Configuration
  rw [Finmap.dlookup_list_toFinmap]

/-- The record the literal holds for each of its keys, by group. -/
theorem dlookup_ConfigurationLiteral :
    ∀ k ∈ ConfigurationLiteral.keys,
      ConfigurationLiteral.dlookup k =
        some (if k ∈ ["ar", "as", "cc", "clang", "clang++", "gcc", "g++", "ld", "ld.bfd",
            "ld.gold", "pkg-config"] then Forbidden
          else if k ∈ ["pgrep", "pkill", "ps"] then LinuxOnlyPrebuilt
          else Allowed) := by
  decide

/-- The lookup on the shipped table, by the group of the literal the name is in. -/
theorem GetConfig_Configuration (n : String) :
    GetConfig Configuration n =
      if n ∈ ["ar", "as", "cc", "clang", "clang++", "gcc", "g++", "ld", "ld.bfd", "ld.gold",
          "pkg-config"] then Forbidden
      else if n ∈ ["pgrep", "pkill", "ps"] then LinuxOnlyPrebuilt
      else if n ∈ Configuration then Allowed
      else Missing := by
  by_cases h : n ∈ Configuration
  · have key := dlookup_ConfigurationLiteral n ((mem_Configuration_iff n).mp h)
    simp only [GetConfig, lookup_Configuration, key, h, if_true]
  · have hF : ∀ k ∈ ["ar", "as", "cc", "clang", "clang++", "gcc", "g++", "ld", "ld.bfd",
        "ld.gold", "pkg-config"], k ∈ ConfigurationLiteral.keys := by
      decide
    have hL : ∀ k ∈ ["pgrep", "pkill", "ps"], k ∈ ConfigurationLiteral.keys := by
      decide
    have h1 : n ∉ ["ar", "as", "cc", "clang", "clang++", "gcc", "g++", "ld", "ld.bfd",
        "ld.gold", "pkg-config"] := fun hn => h ((mem_Configuration_iff n).mpr (hF n hn))
    have h2 : n ∉ ["pgrep", "pkill", "ps"] :=
      fun hn => h ((mem_Configuration_iff n).mpr (hL n hn))
    have hn : Configuration.lookup n = none := Finmap.lookup_eq_none.mpr h
    rw [if_neg h1, if_neg h2, if_neg h]
    simp [GetConfig, hn]

/-- The loop of `init` adds and removes no key. -/
theorem mem_initLoop (c : Registry) (n : String) : n ∈ initLoop c ↔ n ∈ c := by
  rw [← Finmap.lookup_isSome, ← Finmap.lookup_isSome, lookup_initLoop]
  cases c.lookup n <;> simp

/-- The keys after `init` on darwin: the keys before it and the two added names. -/
theorem mem_init_darwin (r : Registry) (n : String) :
    n ∈ init "darwin" r ↔ n ∈ r ∨ n = "sw_vers" ∨ n = "xcrun" := by
  simp only [init, if_true, mem_initLoop, Finmap.mem_insert]
  tauto

/-! ## The claims on the patched map and the shipped table -/

/-- C11: for every registry, after `init` on host OS "darwin" no entry of the
resulting registry has LinuxOnlyPrebuilt=true, and so `GetConfig` returns a
record with LinuxOnlyPrebuilt=false for every name. -/
theorem C11_no_restricted_after_darwin (r : Registry) :
    (∀ (name : String) (cfg : PathConfig),
        (⟨name, cfg⟩ : Sigma (fun _ : String => PathConfig)) ∈ (init "darwin" r).entries →
          cfg.LinuxOnlyPrebuilt = false) ∧
      ∀ name : String, (GetConfig (init "darwin" r) name).LinuxOnlyPrebuilt = false := by
  constructor
  · intro name cfg h
    have hl : (init "darwin" r).lookup name = some cfg := Finmap.lookup_eq_some_iff.mpr h
    rw [lookup_init_darwin] at hl
    split at hl
    · rw [← Option.some.inj hl]
      rfl
    · cases hq : r.lookup name with
      | none => simp [hq] at hl
      | some c =>
        rw [hq] at hl
        have hc := Option.some.inj hl
        cases hb : c.LinuxOnlyPrebuilt
        · simp only [hb] at hc
          rw [← hc]
          exact hb
        · simp only [hb, if_true] at hc
          rw [← hc]
          rfl
  · intro name
    rw [GetConfig_init_darwin]
    split
    · rfl
    · split
      · rfl
      · rename_i hb
        simpa using hb

theorem C11_no_restricted_after_darwin_witness :
    (⟨"pgrep", Allowed⟩ : Sigma (fun _ : String => PathConfig)) ∈
        (init "darwin" Configuration).entries ∧
      Allowed.LinuxOnlyPrebuilt = false ∧
      (GetConfig (init "darwin" Configuration) "pgrep").LinuxOnlyPrebuilt = false :=
  ⟨Finmap.lookup_eq_some_iff.mp (by decide),
    (C11_no_restricted_after_darwin Configuration).1 "pgrep" Allowed
      (Finmap.lookup_eq_some_iff.mp (by decide)),
    (C11_no_restricted_after_darwin Configuration).2 "pgrep"⟩

/-- The keys after `init` on darwin, as a finite set. -/
theorem keys_init_darwin (r : Registry) :
    (init "darwin" r).keys = r.keys ∪ {"sw_vers", "xcrun"} := by
  ext n
  simp only [Finmap.mem_keys, mem_init_darwin, Finset.mem_union, Finset.mem_insert,
    Finset.mem_singleton]

/-- The literal writes no key twice. -/
theorem nodup_keys_ConfigurationLiteral : ConfigurationLiteral.keys.Nodup := by
  decide

/-- The shipped map has one entry for each line of the literal. -/
theorem card_keys_Configuration : Configuration.keys.card = 65 := by
  decide

/-- C12: for every registry r, the key set of the registry `init` produces on
host OS "darwin" is exactly the key set of r together with "sw_vers" and
"xcrun": no key is removed and no other key is added. On the shipped table,
whose keys are pairwise distinct and contain neither name, this adds exactly
two entries, taking it from 65 to 67. -/
theorem C12_keys_after_darwin (r : Registry) :
    (init "darwin" r).keys = r.keys ∪ {"sw_vers", "xcrun"} ∧
      (∀ n : String, n ∈ init "darwin" r ↔ n ∈ r ∨ n = "sw_vers" ∨ n = "xcrun") ∧
      ConfigurationLiteral.keys.Nodup ∧
      "sw_vers" ∉ Configuration ∧ "xcrun" ∉ Configuration ∧
      Configuration.keys.card = 65 ∧
      (init "darwin" Configuration).keys.card = Configuration.keys.card + 2 ∧
      Multiset.card (init "darwin" Configuration).entries =
        Multiset.card Configuration.entries + 2 := by
  refine ⟨keys_init_darwin r, mem_init_darwin r, nodup_keys_ConfigurationLiteral, ?_, ?_,
    card_keys_Configuration, ?_, ?_⟩
  · decide
  · decide
  · decide
  · decide

/-- A name that `init` adds on darwin is none of the host toolchain names. -/
theorem not_mem_hostToolchain_of_added (n : String) (h : n = "sw_vers" ∨ n = "xcrun") :
    n ∉ ["ar", "as", "cc", "clang", "clang++", "gcc", "g++", "ld", "ld.bfd", "ld.gold",
      "pkg-config"] := by
  rcases h with rfl | rfl <;> decide

/-- C13: on the shipped table, for every name, the lookup equals `Forbidden`
if and only if the name is one of the eleven host toolchain names "ar", "as",
"cc", "clang", "clang++", "gcc", "g++", "ld", "ld.bfd", "ld.gold",
"pkg-config"; this holds before `init` and after it for every host OS string. -/
theorem C13_forbidden_iff_hostToolchain (name os : String) :
    (GetConfig Configuration name = Forbidden ↔
        name ∈ ["ar", "as", "cc", "clang", "clang++", "gcc", "g++", "ld", "ld.bfd",
          "ld.gold", "pkg-config"]) ∧
      (GetConfig (init os Configuration) name = Forbidden ↔
        name ∈ ["ar", "as", "cc", "clang", "clang++", "gcc", "g++", "ld", "ld.bfd",
          "ld.gold", "pkg-config"]) := by
  have hAF : Allowed ≠ Forbidden := by decide
  have hLF : LinuxOnlyPrebuilt ≠ Forbidden := by decide
  have hMF : Missing ≠ Forbidden := by decide
  have before : GetConfig Configuration name = Forbidden ↔
      name ∈ ["ar", "as", "cc", "clang", "clang++", "gcc", "g++", "ld", "ld.bfd",
        "ld.gold", "pkg-config"] := by
    rw [GetConfig_Configuration]
    split
    · rename_i h
      exact ⟨fun _ => h, fun _ => rfl⟩
    · rename_i h
      split
      · exact ⟨fun e => absurd e hLF, fun e => absurd e h⟩
      · split
        · exact ⟨fun e => absurd e hAF, fun e => absurd e h⟩
        · exact ⟨fun e => absurd e hMF, fun e => absurd e h⟩
  refine ⟨before, ?_⟩
  by_cases hos : os = "darwin"
  · subst hos
    rw [GetConfig_init_darwin]
    split
    · rename_i hadd
      exact ⟨fun e => absurd e hAF, fun e => absurd e (not_mem_hostToolchain_of_added name hadd)⟩
    · split
      · rename_i hb
        refine ⟨fun e => absurd e hAF, fun e => ?_⟩
        rw [before.mpr e] at hb
        exact absurd hb (by decide)
      · exact before
  · rw [init_of_ne_darwin os _ hos]
    exact before

/-- On the shipped table the restricted records are those of "pgrep", "pkill"
and "ps". -/
theorem restricted_Configuration_iff (name : String) :
    (GetConfig Configuration name).LinuxOnlyPrebuilt = true ↔
      name = "pgrep" ∨ name = "pkill" ∨ name = "ps" := by
  have hFL : ∀ k ∈ ["ar", "as", "cc", "clang", "clang++", "gcc", "g++", "ld", "ld.bfd",
      "ld.gold", "pkg-config"], k ∉ ["pgrep", "pkill", "ps"] := by
    decide
  have hm : name ∈ ["pgrep", "pkill", "ps"] ↔
      name = "pgrep" ∨ name = "pkill" ∨ name = "ps" := by
    simp
  rw [← hm, GetConfig_Configuration]
  split
  · rename_i h
    exact ⟨fun e => absurd e (by decide), fun e => absurd e (hFL name h)⟩
  · split
    · rename_i h
      exact ⟨fun _ => h, fun _ => rfl⟩
    · rename_i h
      split
      · exact ⟨fun e => absurd e (by decide), fun e => absurd e h⟩
      · exact ⟨fun e => absurd e (by decide), fun e => absurd e h⟩

/-- C14: on the shipped table before `init`, for every name, the lookup has
LinuxOnlyPrebuilt=true if and only if the name is "pgrep", "pkill" or "ps";
hence on host OS "darwin" these three are the only keys of the shipped table
whose record `init` changes. -/
theorem C14_restricted_iff (name : String) :
    ((GetConfig Configuration name).LinuxOnlyPrebuilt = true ↔
        name = "pgrep" ∨ name = "pkill" ∨ name = "ps") ∧
      (name ∈ Configuration →
        (GetConfig (init "darwin" Configuration) name ≠ GetConfig Configuration name ↔
          name = "pgrep" ∨ name = "pkill" ∨ name = "ps")) := by
  refine ⟨restricted_Configuration_iff name, fun hmem => ?_⟩
  have hadd : ¬(name = "sw_vers" ∨ name = "xcrun") := by
    rintro (rfl | rfl) <;> revert hmem <;> decide
  rw [← restricted_Configuration_iff name, GetConfig_init_darwin, if_neg hadd]
  cases hb : (GetConfig Configuration name).LinuxOnlyPrebuilt
  · simp
  · simp only [if_true, ne_eq, iff_true]
    intro e
    rw [← e] at hb
    exact absurd hb (by decide)

theorem C14_restricted_iff_witness :
    "pgrep" ∈ Configuration ∧
      (GetConfig (init "darwin" Configuration) "pgrep" ≠ GetConfig Configuration "pgrep" ↔
        "pgrep" = "pgrep" ∨ "pgrep" = "pkill" ∨ "pgrep" = "ps") :=
  ⟨by decide, (C14_restricted_iff "pgrep").2 (by decide)⟩

/-- C15: lookup is by exact, case-sensitive, whole-string match: an entry
stored under a key is returned for that key and affects the lookup of no other
name; on the shipped table the lookup of "x86_64-linux-android-gcc" is
`Allowed` while that of "gcc" is `Forbidden`, and the lookups of "", "gc",
"GCC", "clang+" and "x86_64-linux-android-" are all `Missing`. -/
theorem C15_exact_match (r : Registry) (key name : String) (cfg : PathConfig) :
    GetConfig (r.insert key cfg) name = (if name = key then cfg else GetConfig r name) ∧
      GetConfig Configuration "x86_64-linux-android-gcc" = Allowed ∧
      GetConfig Configuration "gcc" = Forbidden ∧
      GetConfig Configuration "" = Missing ∧
      GetConfig Configuration "gc" = Missing ∧
      GetConfig Configuration "GCC" = Missing ∧
      GetConfig Configuration "clang+" = Missing ∧
      GetConfig Configuration "x86_64-linux-android-" = Missing := by
  refine ⟨?_, ?_⟩
  · by_cases h : name = key
    · subst h
      simp [GetConfig]
    · simp [GetConfig, h, Finmap.lookup_insert_of_ne _ h]
  · decide

/-- C16: the darwin patch only relaxes policy: for every registry r and every
name n, if the lookup after `init` on host OS "darwin" has Error=true then the
lookup in r already had Error=true, and if the lookup in r had Symlink=true
then the lookup after `init` has Symlink=true. -/
theorem C16_darwin_only_relaxes (r : Registry) (n : String) :
    ((GetConfig (init "darwin" r) n).Error = true → (GetConfig r n).Error = true) ∧
      ((GetConfig r n).Symlink = true → (GetConfig (init "darwin" r) n).Symlink = true) := by
  have hE : Allowed.Error = false := rfl
  have hS : Allowed.Symlink = true := rfl
  rw [GetConfig_init_darwin]
  split
  · simp [hE, hS]
  · split
    · simp [hE, hS]
    · exact ⟨id, id⟩

theorem C16_darwin_only_relaxes_witness :
    ((GetConfig (init "darwin" Configuration) "gcc").Error = true ∧
        (GetConfig Configuration "gcc").Error = true) ∧
      ((GetConfig Configuration "git").Symlink = true ∧
        (GetConfig (init "darwin" Configuration) "git").Symlink = true) :=
  ⟨⟨by decide, (C16_darwin_only_relaxes Configuration "gcc").1 (by decide)⟩,
    ⟨by decide, (C16_darwin_only_relaxes Configuration "git").2 (by decide)⟩⟩

/-- The records the shipped table returns. -/
theorem GetConfig_Configuration_cases (name : String) :
    GetConfig Configuration name = Allowed ∨ GetConfig Configuration name = Forbidden ∨
      GetConfig Configuration name = LinuxOnlyPrebuilt ∨
      GetConfig Configuration name = Missing := by
  rw [GetConfig_Configuration]
  split
  · exact Or.inr (Or.inl rfl)
  · split
    · exact Or.inr (Or.inr (Or.inl rfl))
    · split
      · exact Or.inl rfl
      · exact Or.inr (Or.inr (Or.inr rfl))

/-- The records the shipped table returns after `init` on darwin. -/
theorem GetConfig_init_darwin_Configuration_cases (name : String) :
    GetConfig (init "darwin" Configuration) name = Allowed ∨
      GetConfig (init "darwin" Configuration) name = Forbidden ∨
      GetConfig (init "darwin" Configuration) name = Missing := by
  rw [GetConfig_init_darwin]
  split
  · exact Or.inl rfl
  · split
    · exact Or.inl rfl
    · rename_i hb
      rcases GetConfig_Configuration_cases name with h | h | h | h
      · exact Or.inl h
      · exact Or.inr (Or.inl h)
      · rw [h] at hb
        exact absurd rfl hb
      · exact Or.inr (Or.inr h)

/-- The records the shipped table returns after `init` on any host OS. -/
theorem GetConfig_init_Configuration_cases (name os : String) :
    GetConfig (init os Configuration) name = Allowed ∨
      GetConfig (init os Configuration) name = Forbidden ∨
      GetConfig (init os Configuration) name = LinuxOnlyPrebuilt ∨
      GetConfig (init os Configuration) name = Missing := by
  by_cases hos : os = "darwin"
  · subst hos
    rcases GetConfig_init_darwin_Configuration_cases name with h | h | h
    · exact Or.inl h
    · exact Or.inr (Or.inl h)
    · exact Or.inr (Or.inr (Or.inr h))
  · rw [init_of_ne_darwin os _ hos]
    exact GetConfig_Configuration_cases name

/-- C17: on the shipped table, for every name and every host OS string, the
record `GetConfig` returns after `init` is one of `Allowed`, `Forbidden`,
`LinuxOnlyPrebuilt` or `Missing`, and on host OS "darwin" it is one of
`Allowed`, `Forbidden` or `Missing`. The `Log` preset is never returned, so the
returned record has Log = Error, and Symlink=false implies Error=true. -/
theorem C17_returned_presets (name os : String) :
    (GetConfig (init os Configuration) name = Allowed ∨
        GetConfig (init os Configuration) name = Forbidden ∨
        GetConfig (init os Configuration) name = LinuxOnlyPrebuilt ∨
        GetConfig (init os Configuration) name = Missing) ∧
      (GetConfig (init "darwin" Configuration) name = Allowed ∨
        GetConfig (init "darwin" Configuration) name = Forbidden ∨
        GetConfig (init "darwin" Configuration) name = Missing) ∧
      GetConfig (init os Configuration) name ≠ Log ∧
      (GetConfig (init os Configuration) name).Log =
        (GetConfig (init os Configuration) name).Error ∧
      ((GetConfig (init os Configuration) name).Symlink = false →
        (GetConfig (init os Configuration) name).Error = true) := by
  refine ⟨GetConfig_init_Configuration_cases name os,
    GetConfig_init_darwin_Configuration_cases name, ?_, ?_, ?_⟩ <;>
  rcases GetConfig_init_Configuration_cases name os with h | h | h | h <;>
  rw [h] <;> decide

theorem C17_returned_presets_witness :
    (GetConfig (init "linux" Configuration) "gcc").Symlink = false ∧
      (GetConfig (init "linux" Configuration) "gcc").Error = true :=
  ⟨by decide, (C17_returned_presets "gcc" "linux").2.2.2.2 (by decide)⟩

end Paths
